import Mathlib

/-!
Verification of `scripts/plan2scene/texture_prop/gnn_texture_prop.py` (function
`process`) against its specification.

The embedding models the `process` function as a pure function producing the
event trace of its side-effecting calls together with the resulting houses
state.  The helpers `clear_predictions`, `update_embeddings`, `fill_textures`
and the graph generators live outside the excerpt (only their caller is in the
excerpt), so they are modelled from the spec, as indicated on each definition.
-/

namespace Plan2Scene

/-- A texture embedding, abstracted to a numeric code. -/
abbrev Emb := Nat

/-- A surface of a house: an optional observed/synthesized texture crop and an
optional texture embedding. -/
structure Surface where
  crop : Option Nat
  embedding : Option Emb
deriving DecidableEq, Repr

/-- A house is the list of its surfaces. -/
abbrev House := List Surface

/-- The houses dictionary, in iteration order. -/
abbrev Houses := List House

/-- A reference identifying one surface: (house index, surface index). -/
abbrev SurfaceRef := Nat × Nat

/-- The texture-propagation section of the configuration, restricted to the
fields `process` reads for generator selection. -/
structure TexturePropConf where
  train_graph_generator : String
  val_graph_generator : String
deriving DecidableEq, Repr

/-- A graph generator value: either a generator looked up by its configured
name, or the `InferenceHGG` default.  Each carries the `include_target`
argument it was constructed with. -/
inductive GraphGen where
  | configGen (name : String) (includeTarget : Bool)
  | inferenceHGG (includeTarget : Bool)
deriving DecidableEq, Repr

/-- The `include_target` flag a graph generator was constructed with. -/
def GraphGen.includeTarget : GraphGen → Bool
  | .configGen _ t => t
  | .inferenceHGG t => t

/-- Modelled from the spec: `get_graph_generator` (plan2scene.texture_prop.utils,
not in the excerpt) looks up a graph generator by the name configured in the
config file, forwarding the `include_target` argument. -/
def get_graph_generator (name : String) (includeTarget : Bool) : GraphGen :=
  GraphGen.configGen name includeTarget

/-- Graph-generator selection, embedding lines 44-49 of `process`: the source
passes `include_target=False` literally in all three branches. -/
def select_graph_generator (tc : TexturePropConf)
    (use_train_graph_generator use_val_graph_generator : Bool) : GraphGen :=
  if use_train_graph_generator then
    get_graph_generator tc.train_graph_generator false
  else if use_val_graph_generator then
    get_graph_generator tc.val_graph_generator false
  else
    GraphGen.inferenceHGG false

/-- The observable events of one run of `process`, in order. -/
inductive Event where
  | loadTGCheckpointEv
  | loadTPCheckpointEv
  | assertFailEv
  | selectGeneratorEv (g : GraphGen)
  | clearPredictionsEv
  | predictBatchEv (i : Nat)
  | updateEmbeddingsEv (i : Nat) (keep : Bool)
  | fillTexturesEv (skipExisting : Bool)
deriving DecidableEq, Repr

/-- Whether an event is an invocation of `fill_textures`. -/
def Event.isFill : Event → Bool
  | .fillTexturesEv _ => true
  | _ => false

/-- Modelled from the spec: `clear_predictions` (plan2scene.texture_prop.utils,
not in the excerpt) clears every surface's embedding in every house. -/
def clear_predictions (houses : Houses) : Houses :=
  houses.map (fun h => h.map (fun s => { s with embedding := none }))

/-- Replace the `n`-th element of a list by `f` of it; identity out of range. -/
def modifyNth (f : α → α) : Nat → List α → List α
  | _, [] => []
  | 0, a :: l => f a :: l
  | n + 1, a :: l => a :: modifyNth f n l

/-- Apply `f` to the surface named by `r`, in place. -/
def modifySurface (f : Surface → Surface) (r : SurfaceRef) (houses : Houses) : Houses :=
  modifyNth (fun h => modifyNth f r.2 h) r.1 houses

/-- Look up a surface by house index and surface index. -/
def getSurface (houses : Houses) (hi si : Nat) : Option Surface :=
  (houses[hi]?).bind (fun h => h[si]?)

/-- Modelled from the spec: the per-surface merge policy of `update_embeddings`
(plan2scene.texture_prop.utils, not in the excerpt) — an embedding is only
overwritten by propagation if `keep` is false or the surface lacks one. -/
def updateSurfaceEmbedding (keep : Bool) (e : Emb) (s : Surface) : Surface :=
  if keep && s.embedding.isSome then s else { s with embedding := some e }

/-- Modelled from the spec: `update_embeddings` merges the predicted
embeddings of one batch into house state, honoring the keep-existing flag. -/
def update_embeddings (keep : Bool) (model : SurfaceRef → Emb)
    (batch : List SurfaceRef) (houses : Houses) : Houses :=
  batch.foldl (fun hs r => modifySurface (updateSurfaceEmbedding keep (model r)) r hs) houses

/-- Modelled from the spec: the per-surface effect of `fill_textures`
(plan2scene.crop_select.util, not in the excerpt) — synthesize a crop for each
surface holding an embedding, skipping surfaces that already have textures
when `skip` is set. -/
def fillSurfaceTexture (skip : Bool) (synth : Emb → Nat) (s : Surface) : Surface :=
  match s.embedding with
  | none => s
  | some e => if skip && s.crop.isSome then s else { s with crop := some (synth e) }

/-- Modelled from the spec: `fill_textures` over all houses. -/
def fill_textures (skip : Bool) (synth : Emb → Nat) (houses : Houses) : Houses :=
  houses.map (fun h => h.map (fillSurfaceTexture skip synth))

/-- The state effect of the batch loop of `process` (lines 57-62): fold
`update_embeddings` over the batches emitted by the data loader, in order. -/
def runBatches (keep : Bool) (model : SurfaceRef → Emb)
    (batches : List (List SurfaceRef)) (houses : Houses) : Houses :=
  batches.foldl (fun hs b => update_embeddings keep model b hs) houses

/-- The event trace of the batch loop: for each batch index, a model
prediction followed by an embedding merge. -/
def batchTraceEvents (keep : Bool) : Nat → List Event
  | 0 => []
  | n + 1 => batchTraceEvents keep n ++ [Event.predictBatchEv n, Event.updateEmbeddingsEv n keep]

/-- Embedding of `process` (gnn_texture_prop.py lines 20-65).  Both checkpoint
loads happen first; then the assertion `not (use_train and use_val)`; then
generator selection; then, unless `keep_existing_predictions`, the call to
`clear_predictions`; then the sequential batch loop (predict, then merge); and
finally one call to `fill_textures` with `skip_existing_textures` set to
`keep_existing_predictions`.  The GNN is abstracted as `model`, the texture
synthesizer as `synth`, and the batches emitted by the data loader as
`batches`.  Returns the event trace and (unless the assertion fails) the final
houses state. -/
def process (tc : TexturePropConf) (houses : Houses)
    (keep_existing_predictions use_train_graph_generator use_val_graph_generator : Bool)
    (model : SurfaceRef → Emb) (synth : Emb → Nat)
    (batches : List (List SurfaceRef)) : List Event × Option Houses :=
  if use_train_graph_generator && use_val_graph_generator then
    ([Event.loadTGCheckpointEv, Event.loadTPCheckpointEv, Event.assertFailEv], none)
  else
    let g := select_graph_generator tc use_train_graph_generator use_val_graph_generator
    let houses1 := if keep_existing_predictions then houses else clear_predictions houses
    let houses2 := runBatches keep_existing_predictions model batches houses1
    let houses3 := fill_textures keep_existing_predictions synth houses2
    ([Event.loadTGCheckpointEv, Event.loadTPCheckpointEv, Event.selectGeneratorEv g]
       ++ (if keep_existing_predictions then [] else [Event.clearPredictionsEv])
       ++ batchTraceEvents keep_existing_predictions batches.length
       ++ [Event.fillTexturesEv keep_existing_predictions], some houses3)

/-- Pointwise description of `modifyNth`. -/
theorem modifyNth_getElem (f : α → α) :
    ∀ (n : Nat) (l : List α) (i : Nat),
      (modifyNth f n l)[i]? = if i = n then (l[i]?).map f else l[i]?
  | _, [], _ => by simp [modifyNth]
  | 0, a :: l, 0 => by simp [modifyNth]
  | 0, a :: l, i + 1 => by simp [modifyNth]
  | n + 1, a :: l, 0 => by simp [modifyNth]
  | n + 1, a :: l, i + 1 => by
      simp [modifyNth, modifyNth_getElem f n l i]

/-- Pointwise description of `modifySurface`. -/
theorem getSurface_modifySurface (f : Surface → Surface) (r : SurfaceRef)
    (hs : Houses) (hi si : Nat) :
    getSurface (modifySurface f r hs) hi si =
      if hi = r.1 ∧ si = r.2 then (getSurface hs hi si).map f
      else getSurface hs hi si := by
  unfold getSurface modifySurface
  rw [modifyNth_getElem]
  by_cases h1 : hi = r.1
  · rw [if_pos h1]
    cases hm : hs[hi]? with
    | none => simp [h1]
    | some house =>
        simp only [Option.map_some', Option.some_bind]
        rw [modifyNth_getElem]
        by_cases h2 : si = r.2
        · simp [h1, h2]
        · simp [h1, h2]
  · rw [if_neg h1]
    simp [h1]

/-- Looking up through a `map` over all surfaces. -/
theorem getSurface_map (f : Surface → Surface) (hs : Houses) (hi si : Nat) :
    getSurface (hs.map (fun h => h.map f)) hi si = (getSurface hs hi si).map f := by
  unfold getSurface
  rw [List.getElem?_map]
  cases hs[hi]? with
  | none => simp
  | some house => simp [List.getElem?_map]

/-- After `clear_predictions`, every surface that exists has no embedding. -/
theorem getSurface_clear_predictions (hs : Houses) (hi si : Nat) :
    getSurface (clear_predictions hs) hi si =
      (getSurface hs hi si).map (fun s => { s with embedding := none }) :=
  getSurface_map _ hs hi si

/-- Looking up through `fill_textures`. -/
theorem getSurface_fill_textures (skip : Bool) (synth : Emb → Nat)
    (hs : Houses) (hi si : Nat) :
    getSurface (fill_textures skip synth hs) hi si =
      (getSurface hs hi si).map (fillSurfaceTexture skip synth) :=
  getSurface_map _ hs hi si

/-- `fillSurfaceTexture` never changes the embedding. -/
theorem fillSurfaceTexture_embedding (skip : Bool) (synth : Emb → Nat) (s : Surface) :
    (fillSurfaceTexture skip synth s).embedding = s.embedding := by
  rcases s with ⟨c, emb⟩
  cases emb with
  | none => rfl
  | some e =>
      unfold fillSurfaceTexture
      dsimp
      split <;> rfl

/-- `updateSurfaceEmbedding` leaves a surface with an embedding unchanged when
`keep` is true. -/
theorem updateSurfaceEmbedding_keep (e : Emb) (s : Surface)
    (h : s.embedding.isSome) : updateSurfaceEmbedding true e s = s := by
  unfold updateSurfaceEmbedding
  simp [h]

/-- The result of `updateSurfaceEmbedding` always has an embedding when the
input does. -/
theorem updateSurfaceEmbedding_isSome (keep : Bool) (e : Emb) (s : Surface)
    (h : s.embedding.isSome) : (updateSurfaceEmbedding keep e s).embedding.isSome := by
  unfold updateSurfaceEmbedding
  split
  · exact h
  · simp

/-- With `keep = true`, one batch merge preserves every existing embedding. -/
theorem update_embeddings_keep_preserves (model : SurfaceRef → Emb) :
    ∀ (batch : List SurfaceRef) (hs : Houses) (hi si : Nat) (s : Surface),
      getSurface hs hi si = some s → s.embedding.isSome →
      ∃ s', getSurface (update_embeddings true model batch hs) hi si = some s' ∧
        s'.embedding = s.embedding
  | [], hs, hi, si, s, hget, hemb => ⟨s, hget, rfl⟩
  | r :: batch, hs, hi, si, s, hget, hemb => by
      have hstep : getSurface
          (modifySurface (updateSurfaceEmbedding true (model r)) r hs) hi si = some s := by
        rw [getSurface_modifySurface]
        split
        · rw [hget]
          show some (updateSurfaceEmbedding true (model r) s) = some s
          rw [updateSurfaceEmbedding_keep _ _ hemb]
        · exact hget
      exact update_embeddings_keep_preserves model batch _ hi si s hstep hemb

/-- Any batch merge preserves existence and presence of an embedding. -/
theorem update_embeddings_isSome_preserves (keep : Bool) (model : SurfaceRef → Emb) :
    ∀ (batch : List SurfaceRef) (hs : Houses) (hi si : Nat) (s : Surface),
      getSurface hs hi si = some s → s.embedding.isSome →
      ∃ s', getSurface (update_embeddings keep model batch hs) hi si = some s' ∧
        s'.embedding.isSome
  | [], hs, hi, si, s, hget, hemb => ⟨s, hget, hemb⟩
  | r :: batch, hs, hi, si, s, hget, hemb => by
      by_cases hcase : hi = r.1 ∧ si = r.2
      · have hstep : getSurface
            (modifySurface (updateSurfaceEmbedding keep (model r)) r hs) hi si =
              some (updateSurfaceEmbedding keep (model r) s) := by
          rw [getSurface_modifySurface, if_pos hcase, hget]
          rfl
        exact update_embeddings_isSome_preserves keep model batch _ hi si _ hstep
          (updateSurfaceEmbedding_isSome keep _ s hemb)
      · have hstep : getSurface
            (modifySurface (updateSurfaceEmbedding keep (model r)) r hs) hi si = some s := by
          rw [getSurface_modifySurface, if_neg hcase]
          exact hget
        exact update_embeddings_isSome_preserves keep model batch _ hi si s hstep hemb

/-- Any batch merge preserves surface existence. -/
theorem update_embeddings_exists_preserves (keep : Bool) (model : SurfaceRef → Emb) :
    ∀ (batch : List SurfaceRef) (hs : Houses) (hi si : Nat) (s : Surface),
      getSurface hs hi si = some s →
      ∃ s', getSurface (update_embeddings keep model batch hs) hi si = some s'
  | [], hs, hi, si, s, hget => ⟨s, hget⟩
  | r :: batch, hs, hi, si, s, hget => by
      by_cases hcase : hi = r.1 ∧ si = r.2
      · have hstep : getSurface
            (modifySurface (updateSurfaceEmbedding keep (model r)) r hs) hi si =
              some (updateSurfaceEmbedding keep (model r) s) := by
          rw [getSurface_modifySurface, if_pos hcase, hget]
          rfl
        exact update_embeddings_exists_preserves keep model batch _ hi si _ hstep
      · have hstep : getSurface
            (modifySurface (updateSurfaceEmbedding keep (model r)) r hs) hi si = some s := by
          rw [getSurface_modifySurface, if_neg hcase]
          exact hget
        exact update_embeddings_exists_preserves keep model batch _ hi si s hstep

/-- With `keep = false`, merging a batch that contains the surface leaves it
with an embedding. -/
theorem update_embeddings_mem_sets (model : SurfaceRef → Emb) :
    ∀ (batch : List SurfaceRef) (hs : Houses) (hi si : Nat) (s : Surface),
      getSurface hs hi si = some s → (hi, si) ∈ batch →
      ∃ s', getSurface (update_embeddings false model batch hs) hi si = some s' ∧
        s'.embedding.isSome
  | [], _, _, _, _, _, hmem => absurd hmem (List.not_mem_nil _)
  | r :: batch, hs, hi, si, s, hget, hmem => by
      by_cases hcase : hi = r.1 ∧ si = r.2
      · have hstep : getSurface
            (modifySurface (updateSurfaceEmbedding false (model r)) r hs) hi si =
              some (updateSurfaceEmbedding false (model r) s) := by
          rw [getSurface_modifySurface, if_pos hcase, hget]
          rfl
        have hsome : (updateSurfaceEmbedding false (model r) s).embedding.isSome := by
          unfold updateSurfaceEmbedding
          simp
        exact update_embeddings_isSome_preserves false model batch _ hi si _ hstep hsome
      · have hstep : getSurface
            (modifySurface (updateSurfaceEmbedding false (model r)) r hs) hi si = some s := by
          rw [getSurface_modifySurface, if_neg hcase]
          exact hget
        have hmem' : (hi, si) ∈ batch := by
          rcases List.mem_cons.mp hmem with heq | h
          · exact absurd ⟨congrArg Prod.fst heq, congrArg Prod.snd heq⟩ hcase
          · exact h
        exact update_embeddings_mem_sets model batch _ hi si s hstep hmem'

/-- The whole batch loop preserves existing embeddings when `keep = true`. -/
theorem runBatches_keep_preserves (model : SurfaceRef → Emb) :
    ∀ (batches : List (List SurfaceRef)) (hs : Houses) (hi si : Nat) (s : Surface),
      getSurface hs hi si = some s → s.embedding.isSome →
      ∃ s', getSurface (runBatches true model batches hs) hi si = some s' ∧
        s'.embedding = s.embedding
  | [], hs, hi, si, s, hget, hemb => ⟨s, hget, rfl⟩
  | b :: batches, hs, hi, si, s, hget, hemb => by
      obtain ⟨s1, h1, he1⟩ := update_embeddings_keep_preserves model b hs hi si s hget hemb
      obtain ⟨s2, h2, he2⟩ := runBatches_keep_preserves model batches
        (update_embeddings true model b hs) hi si s1 h1 (by rw [he1]; exact hemb)
      exact ⟨s2, h2, by rw [he2, he1]⟩

/-- The whole batch loop preserves existence and presence of an embedding. -/
theorem runBatches_isSome_preserves (keep : Bool) (model : SurfaceRef → Emb) :
    ∀ (batches : List (List SurfaceRef)) (hs : Houses) (hi si : Nat) (s : Surface),
      getSurface hs hi si = some s → s.embedding.isSome →
      ∃ s', getSurface (runBatches keep model batches hs) hi si = some s' ∧
        s'.embedding.isSome
  | [], hs, hi, si, s, hget, hemb => ⟨s, hget, hemb⟩
  | b :: batches, hs, hi, si, s, hget, hemb => by
      obtain ⟨s1, h1, he1⟩ := update_embeddings_isSome_preserves keep model b hs hi si s hget hemb
      exact runBatches_isSome_preserves keep model batches
        (update_embeddings keep model b hs) hi si s1 h1 he1

/-- With `keep = false`, a surface covered by some emitted batch ends the
batch loop holding an embedding. -/
theorem runBatches_mem_sets (model : SurfaceRef → Emb) :
    ∀ (batches : List (List SurfaceRef)) (hs : Houses) (hi si : Nat) (s : Surface)
      (b : List SurfaceRef),
      getSurface hs hi si = some s → b ∈ batches → (hi, si) ∈ b →
      ∃ s', getSurface (runBatches false model batches hs) hi si = some s' ∧
        s'.embedding.isSome
  | [], _, _, _, _, _, _, hb, _ => absurd hb (List.not_mem_nil _)
  | b' :: batches, hs, hi, si, s, b, hget, hb, hmem => by
      rcases List.mem_cons.mp hb with heq | htail
      · subst heq
        obtain ⟨s1, h1, he1⟩ := update_embeddings_mem_sets model b hs hi si s hget hmem
        exact runBatches_isSome_preserves false model batches
          (update_embeddings false model b hs) hi si s1 h1 he1
      · obtain ⟨s1, h1⟩ := update_embeddings_exists_preserves false model b' hs hi si s hget
        exact runBatches_mem_sets model batches
          (update_embeddings false model b' hs) hi si s1 b h1 htail hmem

/-- With `skip = false`, filling a surface that holds an embedding leaves it
with a crop. -/
theorem fillSurfaceTexture_crop_isSome (synth : Emb → Nat) (s : Surface)
    (h : s.embedding.isSome) : (fillSurfaceTexture false synth s).crop.isSome := by
  rcases s with ⟨c, emb⟩
  cases emb with
  | none => simp at h
  | some e =>
      unfold fillSurfaceTexture
      simp

/-- Each batch trace prefix of index `i` breaks out of the full loop trace. -/
theorem batchTraceEvents_decomp (keep : Bool) :
    ∀ (n i : Nat), i < n → ∃ post, batchTraceEvents keep n =
      batchTraceEvents keep i ++
        [Event.predictBatchEv i, Event.updateEmbeddingsEv i keep] ++ post
  | 0, i, h => absurd h (Nat.not_lt_zero i)
  | n + 1, i, h => by
      rcases Nat.lt_succ_iff_lt_or_eq.mp h with h' | h'
      · obtain ⟨post, hp⟩ := batchTraceEvents_decomp keep n i h'
        refine ⟨post ++ [Event.predictBatchEv n, Event.updateEmbeddingsEv n keep], ?_⟩
        show batchTraceEvents keep n ++ _ = _
        rw [hp]
        simp
      · subst h'
        exact ⟨[], by simp [batchTraceEvents]⟩

/-- Prediction events in the loop trace carry batch indices below the count. -/
theorem predictBatchEv_mem_batchTraceEvents (keep : Bool) :
    ∀ (n j : Nat), Event.predictBatchEv j ∈ batchTraceEvents keep n → j < n
  | 0, j, h => absurd h (List.not_mem_nil _)
  | n + 1, j, h => by
      simp only [batchTraceEvents, List.mem_append, List.mem_cons,
        List.not_mem_nil, or_false] at h
      rcases h with h | h | h
      · exact Nat.lt_succ_of_lt (predictBatchEv_mem_batchTraceEvents keep n j h)
      · cases h
        exact Nat.lt_succ_self n
      · cases h

/-- The loop trace never contains a `fill_textures` invocation. -/
theorem batchTraceEvents_no_fill (keep : Bool) :
    ∀ n, (batchTraceEvents keep n).filter Event.isFill = []
  | 0 => rfl
  | n + 1 => by
      show ((batchTraceEvents keep n ++ _).filter _) = []
      rw [List.filter_append, batchTraceEvents_no_fill keep n]
      rfl

/-- The last element of a list ending in an explicit singleton. -/
theorem getLast?_append_singleton (l : List α) (a : α) : (l ++ [a]).getLast? = some a := by
  rw [List.getLast?_append_cons]
  rfl

/-- Unfolding of `process` when the flag assertion passes. -/
theorem process_eq_of_flags_ok (tc : TexturePropConf) (houses : Houses)
    (keep utg uvg : Bool) (model : SurfaceRef → Emb) (synth : Emb → Nat)
    (batches : List (List SurfaceRef)) (hflags : (utg && uvg) = false) :
    process tc houses keep utg uvg model synth batches =
      ([Event.loadTGCheckpointEv, Event.loadTPCheckpointEv,
          Event.selectGeneratorEv (select_graph_generator tc utg uvg)]
        ++ (if keep then [] else [Event.clearPredictionsEv])
        ++ batchTraceEvents keep batches.length
        ++ [Event.fillTexturesEv keep],
       some (fill_textures keep synth (runBatches keep model batches
         (if keep then houses else clear_predictions houses)))) := by
  unfold process
  rw [if_neg (by rw [hflags]; exact Bool.false_ne_true)]

/-- Claim C1: for every house and every surface that holds an embedding
before the run, if `keep_existing_predictions` is true then that surface's
embedding after `process` returns equals its embedding before; an embedding is
only overwritten by propagation if the flag is false or the surface lacks
one. -/
theorem keep_existing_preserves_embeddings (tc : TexturePropConf) (houses : Houses)
    (utg uvg : Bool) (model : SurfaceRef → Emb) (synth : Emb → Nat)
    (batches : List (List SurfaceRef)) (hi si : Nat) (s : Surface) (houses' : Houses)
    (hget : getSurface houses hi si = some s) (hemb : s.embedding.isSome)
    (hres : (process tc houses true utg uvg model synth batches).2 = some houses') :
    ∃ s', getSurface houses' hi si = some s' ∧ s'.embedding = s.embedding := by
  by_cases hflags : (utg && uvg) = true
  · rw [process, if_pos hflags] at hres
    cases hres
  · rw [process_eq_of_flags_ok tc houses true utg uvg model synth batches
      (Bool.eq_false_iff.mpr hflags)] at hres
    obtain ⟨s1, h1, he1⟩ := runBatches_keep_preserves model batches houses hi si s hget hemb
    injection hres with hres'
    subst hres'
    refine ⟨fillSurfaceTexture true synth s1, ?_, ?_⟩
    · show getSurface (fill_textures true synth (runBatches true model batches
        (if true then houses else clear_predictions houses))) hi si = _
      rw [if_pos rfl, getSurface_fill_textures, h1]
      rfl
    · rw [fillSurfaceTexture_embedding]
      exact he1

/-- Claim C2: with `keep_existing_predictions = false`, every surface's
embedding is cleared by `clear_predictions` before the propagation loop runs
any prediction: the clear event precedes every predict event in the trace, the
final state is computed from `clear_predictions houses`, and the cleared state
holds no embeddings. -/
theorem clear_before_propagation (tc : TexturePropConf) (houses : Houses)
    (utg uvg : Bool) (model : SurfaceRef → Emb) (synth : Emb → Nat)
    (batches : List (List SurfaceRef)) (hflags : (utg && uvg) = false) :
    (∃ pre post, (process tc houses false utg uvg model synth batches).1 =
        pre ++ Event.clearPredictionsEv :: post ∧
        ∀ i, Event.predictBatchEv i ∉ pre)
    ∧ (process tc houses false utg uvg model synth batches).2 =
        some (fill_textures false synth
          (runBatches false model batches (clear_predictions houses)))
    ∧ ∀ hi si s, getSurface (clear_predictions houses) hi si = some s →
        s.embedding = none := by
  refine ⟨⟨[Event.loadTGCheckpointEv, Event.loadTPCheckpointEv,
      Event.selectGeneratorEv (select_graph_generator tc utg uvg)],
      batchTraceEvents false batches.length ++ [Event.fillTexturesEv false], ?_, ?_⟩, ?_, ?_⟩
  · rw [process_eq_of_flags_ok tc houses false utg uvg model synth batches hflags]
    simp
  · intro i
    simp
  · rw [process_eq_of_flags_ok tc houses false utg uvg model synth batches hflags]
    rfl
  · intro hi si s hgs
    rw [getSurface_clear_predictions] at hgs
    cases hg : getSurface houses hi si with
    | none => rw [hg] at hgs; cases hgs
    | some t =>
        rw [hg] at hgs
        injection hgs with h
        rw [← h]

/-- Claim C3: calling `process` with both graph-generator flags set aborts on
the assertion: the result state is absent, the trace records the assertion
failure, and no model inference (prediction event) occurs. -/
theorem both_generator_flags_abort (tc : TexturePropConf) (houses : Houses)
    (keep : Bool) (model : SurfaceRef → Emb) (synth : Emb → Nat)
    (batches : List (List SurfaceRef)) :
    (process tc houses keep true true model synth batches).2 = none
    ∧ (process tc houses keep true true model synth batches).1 =
        [Event.loadTGCheckpointEv, Event.loadTPCheckpointEv, Event.assertFailEv]
    ∧ ∀ i, Event.predictBatchEv i ∉
        (process tc houses keep true true model synth batches).1 := by
  refine ⟨rfl, rfl, ?_⟩
  intro i
  show Event.predictBatchEv i ∉
    [Event.loadTGCheckpointEv, Event.loadTPCheckpointEv, Event.assertFailEv]
  simp

/-- Claim C4 counterexample: at a concrete configuration, the train-time and
validation-time selections are also constructed with `include_target = false`,
refuting that the inference variant withholds target labels while the others
include them. -/
theorem train_val_selection_withholds_target :
    (select_graph_generator ⟨"t_gen", "v_gen"⟩ true false).includeTarget = false
    ∧ (select_graph_generator ⟨"t_gen", "v_gen"⟩ false true).includeTarget = false
    ∧ (select_graph_generator ⟨"t_gen", "v_gen"⟩ false false).includeTarget = false :=
  ⟨rfl, rfl, rfl⟩

/-- Claim C4 (amended): all three selectable graph-construction policies are
constructed with `include_target = false` — target labels are withheld by the
train-time and validation-time variants just as by the inference default. -/
theorem generator_selection_always_withholds_target (tc : TexturePropConf)
    (utg uvg : Bool) :
    (select_graph_generator tc utg uvg).includeTarget = false := by
  unfold select_graph_generator get_graph_generator
  cases utg <;> cases uvg <;> rfl

/-- Claim C5: graph-generator selection is a pure function of the two flags —
the train-time generator when `use_train_graph_generator`, else the
validation-time generator when `use_val_graph_generator`, else `InferenceHGG`
— and the selected generator is the one `process` records. -/
theorem generator_selection_pure (tc : TexturePropConf) (houses : Houses)
    (keep : Bool) (model : SurfaceRef → Emb) (synth : Emb → Nat)
    (batches : List (List SurfaceRef)) (utg uvg : Bool)
    (hflags : (utg && uvg) = false) :
    Event.selectGeneratorEv (select_graph_generator tc utg uvg)
        ∈ (process tc houses keep utg uvg model synth batches).1
    ∧ (utg = true → select_graph_generator tc utg uvg =
        get_graph_generator tc.train_graph_generator false)
    ∧ (utg = false → uvg = true → select_graph_generator tc utg uvg =
        get_graph_generator tc.val_graph_generator false)
    ∧ (utg = false → uvg = false → select_graph_generator tc utg uvg =
        GraphGen.inferenceHGG false) := by
  refine ⟨?_, ?_, ?_, ?_⟩
  · rw [process_eq_of_flags_ok tc houses keep utg uvg model synth batches hflags]
    simp
  · intro h
    subst h
    rfl
  · intro h1 h2
    subst h1
    subst h2
    rfl
  · intro h1 h2
    subst h1
    subst h2
    rfl

/-- Claim C6: batches are handled sequentially in emission order, each batch
running the model prediction immediately followed by the embedding merge that
receives the keep-existing-predictions flag; the final state is the fold of
`update_embeddings` over the batches. -/
theorem batches_processed_sequentially (tc : TexturePropConf) (houses : Houses)
    (keep utg uvg : Bool) (model : SurfaceRef → Emb) (synth : Emb → Nat)
    (batches : List (List SurfaceRef)) (i : Nat)
    (hflags : (utg && uvg) = false) (hcount : i < batches.length) :
    (∃ pre post, (process tc houses keep utg uvg model synth batches).1 =
        pre ++ [Event.predictBatchEv i, Event.updateEmbeddingsEv i keep] ++ post
        ∧ ∀ j, Event.predictBatchEv j ∈ pre → j < i)
    ∧ (process tc houses keep utg uvg model synth batches).2 =
        some (fill_textures keep synth (runBatches keep model batches
          (if keep then houses else clear_predictions houses))) := by
  obtain ⟨post, hpost⟩ := batchTraceEvents_decomp keep batches.length i hcount
  constructor
  · refine ⟨[Event.loadTGCheckpointEv, Event.loadTPCheckpointEv,
      Event.selectGeneratorEv (select_graph_generator tc utg uvg)]
      ++ (if keep then [] else [Event.clearPredictionsEv])
      ++ batchTraceEvents keep i,
      post ++ [Event.fillTexturesEv keep], ?_, ?_⟩
    · rw [process_eq_of_flags_ok tc houses keep utg uvg model synth batches hflags, hpost]
      simp
    · intro j hj
      rcases List.mem_append.mp hj with h | h
      · rcases List.mem_append.mp h with h1 | h1
        · simp at h1
        · revert h1
          cases keep
          · intro h1
            simp at h1
          · intro h1
            simp at h1
      · exact predictBatchEv_mem_batchTraceEvents keep i j h
  · rw [process_eq_of_flags_ok tc houses keep utg uvg model synth batches hflags]

/-- Claim C7: in every completed run, `fill_textures` is invoked exactly once,
and that invocation is the final event — after the entire batch loop. -/
theorem fill_textures_once_after_loop (tc : TexturePropConf) (houses : Houses)
    (keep utg uvg : Bool) (model : SurfaceRef → Emb) (synth : Emb → Nat)
    (batches : List (List SurfaceRef)) (hflags : (utg && uvg) = false) :
    ((process tc houses keep utg uvg model synth batches).1.filter Event.isFill).length = 1
    ∧ (process tc houses keep utg uvg model synth batches).1.getLast? =
        some (Event.fillTexturesEv keep) := by
  rw [process_eq_of_flags_ok tc houses keep utg uvg model synth batches hflags]
  constructor
  · rw [List.filter_append, List.filter_append, List.filter_append,
      batchTraceEvents_no_fill]
    cases keep <;> rfl
  · show (([Event.loadTGCheckpointEv, Event.loadTPCheckpointEv,
      Event.selectGeneratorEv (select_graph_generator tc utg uvg)]
      ++ (if keep then [] else [Event.clearPredictionsEv])
      ++ batchTraceEvents keep batches.length)
      ++ [Event.fillTexturesEv keep]).getLast? = some (Event.fillTexturesEv keep)
    exact getLast?_append_singleton _ _

/-- Claim C8: the texture-synthesis step skips existing textures exactly when
`keep_existing_predictions` is set: `process` passes the keep flag, unchanged,
as the `skip_existing_textures` argument of the final `fill_textures` call. -/
theorem skip_existing_equals_keep_flag (tc : TexturePropConf) (houses : Houses)
    (keep utg uvg : Bool) (model : SurfaceRef → Emb) (synth : Emb → Nat)
    (batches : List (List SurfaceRef)) (hflags : (utg && uvg) = false) :
    (process tc houses keep utg uvg model synth batches).1.getLast? =
        some (Event.fillTexturesEv keep)
    ∧ (process tc houses keep utg uvg model synth batches).2 =
        some (fill_textures keep synth (runBatches keep model batches
          (if keep then houses else clear_predictions houses))) := by
  rw [process_eq_of_flags_ok tc houses keep utg uvg model synth batches hflags]
  constructor
  · show (([Event.loadTGCheckpointEv, Event.loadTPCheckpointEv,
      Event.selectGeneratorEv (select_graph_generator tc utg uvg)]
      ++ (if keep then [] else [Event.clearPredictionsEv])
      ++ batchTraceEvents keep batches.length)
      ++ [Event.fillTexturesEv keep]).getLast? = some (Event.fillTexturesEv keep)
    exact getLast?_append_singleton _ _
  · rfl

/-- Claim C9: a surface lacking an observed crop, covered by an emitted batch,
ends a default-flag run (`keep_existing_predictions = false`, neither
graph-generator flag set) with a non-null embedding and a non-null crop. -/
theorem unobserved_surface_gets_texture (tc : TexturePropConf) (houses : Houses)
    (model : SurfaceRef → Emb) (synth : Emb → Nat)
    (batches : List (List SurfaceRef)) (hi si : Nat) (s : Surface)
    (b : List SurfaceRef)
    (hget : getSurface houses hi si = some s) (hcrop : s.crop = none)
    (hb : b ∈ batches) (hmem : (hi, si) ∈ b) :
    ∃ houses' s',
      (process tc houses false false false model synth batches).2 = some houses'
      ∧ getSurface houses' hi si = some s'
      ∧ s'.embedding.isSome ∧ s'.crop.isSome := by
  have hclear : getSurface (clear_predictions houses) hi si =
      some { s with embedding := none } := by
    rw [getSurface_clear_predictions, hget]
    rfl
  obtain ⟨s1, h1, he1⟩ := runBatches_mem_sets model batches (clear_predictions houses)
    hi si { s with embedding := none } b hclear hb hmem
  refine ⟨fill_textures false synth (runBatches false model batches
    (clear_predictions houses)), fillSurfaceTexture false synth s1, rfl, ?_, ?_, ?_⟩
  · rw [getSurface_fill_textures, h1]
    rfl
  · rw [fillSurfaceTexture_embedding]
    exact he1
  · exact fillSurfaceTexture_crop_isSome synth s1 he1

/-- Claim C10: both checkpoint loads happen before the mutually-exclusive-flag
assertion is checked: every trace starts with the two load events, and even
with both flags set the trace is exactly the two loads followed by the
assertion failure. -/
theorem checkpoints_loaded_before_assert (tc : TexturePropConf) (houses : Houses)
    (keep utg uvg : Bool) (model : SurfaceRef → Emb) (synth : Emb → Nat)
    (batches : List (List SurfaceRef)) :
    (process tc houses keep utg uvg model synth batches).1.take 2 =
        [Event.loadTGCheckpointEv, Event.loadTPCheckpointEv]
    ∧ (process tc houses keep true true model synth batches).1 =
        [Event.loadTGCheckpointEv, Event.loadTPCheckpointEv, Event.assertFailEv] := by
  constructor
  · unfold process
    split
    · rfl
    · rfl
  · rfl

/-- Concrete instance of the C1 theorem: one house, one surface with
embedding 7 and no crop; after a keep-existing run the embedding is intact. -/
theorem keep_existing_preserves_embeddings_witness :
    ∃ s', getSurface [[Surface.mk (some 8) (some 7)]] 0 0 = some s' ∧
      s'.embedding = some 7 :=
  keep_existing_preserves_embeddings ⟨"tg", "vg"⟩ [[Surface.mk none (some 7)]]
    false false (fun _ => 3) (fun e => e + 1) [[(0, 0)]] 0 0 (Surface.mk none (some 7))
    [[Surface.mk (some 8) (some 7)]] rfl rfl rfl

/-- Concrete instance of the C2 theorem. -/
theorem clear_before_propagation_witness :
    (∃ pre post, (process ⟨"tg", "vg"⟩ [[Surface.mk none (some 7)]] false false false
        (fun _ => 3) (fun e => e + 1) [[(0, 0)]]).1 =
        pre ++ Event.clearPredictionsEv :: post ∧
        ∀ i, Event.predictBatchEv i ∉ pre)
    ∧ (process ⟨"tg", "vg"⟩ [[Surface.mk none (some 7)]] false false false
        (fun _ => 3) (fun e => e + 1) [[(0, 0)]]).2 =
        some (fill_textures false (fun e => e + 1)
          (runBatches false (fun _ => 3) [[(0, 0)]]
            (clear_predictions [[Surface.mk none (some 7)]])))
    ∧ ∀ hi si s,
        getSurface (clear_predictions [[Surface.mk none (some 7)]]) hi si = some s →
        s.embedding = none :=
  clear_before_propagation ⟨"tg", "vg"⟩ [[Surface.mk none (some 7)]] false false
    (fun _ => 3) (fun e => e + 1) [[(0, 0)]] rfl

/-- Concrete instance of the C5 theorem with the train-time flag set. -/
theorem generator_selection_pure_witness :
    Event.selectGeneratorEv (select_graph_generator ⟨"tg", "vg"⟩ true false)
        ∈ (process ⟨"tg", "vg"⟩ [] false true false (fun _ => 3) (fun e => e + 1) []).1
    ∧ (true = true → select_graph_generator ⟨"tg", "vg"⟩ true false =
        get_graph_generator "tg" false)
    ∧ (true = false → false = true → select_graph_generator ⟨"tg", "vg"⟩ true false =
        get_graph_generator "vg" false)
    ∧ (true = false → false = false → select_graph_generator ⟨"tg", "vg"⟩ true false =
        GraphGen.inferenceHGG false) :=
  generator_selection_pure ⟨"tg", "vg"⟩ [] false (fun _ => 3) (fun e => e + 1) []
    true false rfl

/-- Concrete instance of the C6 theorem at batch index 0. -/
theorem batches_processed_sequentially_witness :
    (∃ pre post, (process ⟨"tg", "vg"⟩ [[Surface.mk none (some 7)]] false false false
        (fun _ => 3) (fun e => e + 1) [[(0, 0)]]).1 =
        pre ++ [Event.predictBatchEv 0, Event.updateEmbeddingsEv 0 false] ++ post
        ∧ ∀ j, Event.predictBatchEv j ∈ pre → j < 0)
    ∧ (process ⟨"tg", "vg"⟩ [[Surface.mk none (some 7)]] false false false
        (fun _ => 3) (fun e => e + 1) [[(0, 0)]]).2 =
        some (fill_textures false (fun e => e + 1)
          (runBatches false (fun _ => 3) [[(0, 0)]]
            (clear_predictions [[Surface.mk none (some 7)]]))) :=
  batches_processed_sequentially ⟨"tg", "vg"⟩ [[Surface.mk none (some 7)]]
    false false false (fun _ => 3) (fun e => e + 1) [[(0, 0)]] 0 rfl (by decide)

/-- Concrete instance of the C7 theorem. -/
theorem fill_textures_once_after_loop_witness :
    ((process ⟨"tg", "vg"⟩ [[Surface.mk none (some 7)]] false false false
        (fun _ => 3) (fun e => e + 1) [[(0, 0)]]).1.filter Event.isFill).length = 1
    ∧ (process ⟨"tg", "vg"⟩ [[Surface.mk none (some 7)]] false false false
        (fun _ => 3) (fun e => e + 1) [[(0, 0)]]).1.getLast? =
        some (Event.fillTexturesEv false) :=
  fill_textures_once_after_loop ⟨"tg", "vg"⟩ [[Surface.mk none (some 7)]]
    false false false (fun _ => 3) (fun e => e + 1) [[(0, 0)]] rfl

/-- Concrete instance of the C8 theorem with the keep flag set. -/
theorem skip_existing_equals_keep_flag_witness :
    (process ⟨"tg", "vg"⟩ [[Surface.mk none (some 7)]] true false false
        (fun _ => 3) (fun e => e + 1) [[(0, 0)]]).1.getLast? =
        some (Event.fillTexturesEv true)
    ∧ (process ⟨"tg", "vg"⟩ [[Surface.mk none (some 7)]] true false false
        (fun _ => 3) (fun e => e + 1) [[(0, 0)]]).2 =
        some (fill_textures true (fun e => e + 1)
          (runBatches true (fun _ => 3) [[(0, 0)]]
            (if true then [[Surface.mk none (some 7)]]
             else clear_predictions [[Surface.mk none (some 7)]]))) :=
  skip_existing_equals_keep_flag ⟨"tg", "vg"⟩ [[Surface.mk none (some 7)]]
    true false false (fun _ => 3) (fun e => e + 1) [[(0, 0)]] rfl

/-- Concrete instance of the C9 theorem: a surface with neither crop nor
embedding, covered by the single emitted batch. -/
theorem unobserved_surface_gets_texture_witness :
    ∃ houses' s',
      (process ⟨"tg", "vg"⟩ [[Surface.mk none none]] false false false
        (fun _ => 3) (fun e => e + 1) [[(0, 0)]]).2 = some houses'
      ∧ getSurface houses' 0 0 = some s'
      ∧ s'.embedding.isSome ∧ s'.crop.isSome :=
  unobserved_surface_gets_texture ⟨"tg", "vg"⟩ [[Surface.mk none none]]
    (fun _ => 3) (fun e => e + 1) [[(0, 0)]] 0 0 (Surface.mk none none) [(0, 0)]
    rfl rfl (by decide) (by decide)

end Plan2Scene
